import Mathlib

/-!
Verification of the travel-itinerary manager's data-access fallback layer,
derived-view computations, and create-dialog submission logic.

The embedding mirrors the TypeScript source:
* `DatabaseService` (availability memoization and fallback reads) is modelled
  as explicit state passing: the mutable static field `isDatabaseAvailable`
  becomes an `Option Bool` threaded through each operation, and the outcomes
  of the remote calls (the availability probe and the per-operation query)
  are supplied as oracle arguments, since the network is external.
* JS `Date` values are modelled as integer millisecond timestamps; parsing a
  `"YYYY-MM-DD"` string yields midnight UTC of that civil date, as in JS.
* JS numbers are modelled as exact rationals where division occurs.
* Fallible remote calls are modelled with `Except`.
-/

namespace TravelPlan

/-- The `Trip` record shape from the database layer. -/
structure Trip where
  id : String
  userId : String
  title : String
  description : Option String
  destination : String
  startDate : String
  endDate : String
  createdAt : String
  updatedAt : Option String
deriving DecidableEq

/-- The `TripEntry` record shape from the database layer. -/
structure TripEntry where
  id : String
  tripId : String
  userId : String
  title : String
  description : Option String
  location : Option String
  address : Option String
  date : String
  startTime : Option String
  endTime : Option String
  category : String
  createdAt : String
  updatedAt : Option String
deriving DecidableEq

/-- The `PackingItem` record shape from the database layer. -/
structure PackingItem where
  id : String
  tripId : String
  userId : String
  itemName : String
  category : Option String
  isPacked : Bool
  notes : Option String
  createdAt : String
deriving DecidableEq

/-- The static seed list `mockTrips` served when the database is unavailable. -/
def mockTrips : List Trip :=
  [ { id := "1", userId := "mock-user", title := "Tokyo Adventure",
      description := some "Exploring the vibrant culture and cuisine of Japan",
      destination := "Tokyo, Japan", startDate := "2024-03-15", endDate := "2024-03-22",
      createdAt := "2024-01-15T10:00:00Z", updatedAt := some "2024-01-15T10:00:00Z" },
    { id := "2", userId := "mock-user", title := "European Summer",
      description := some "Multi-city tour across Europe",
      destination := "Paris, Rome, Barcelona", startDate := "2024-06-10", endDate := "2024-06-25",
      createdAt := "2024-01-20T14:30:00Z", updatedAt := some "2024-01-20T14:30:00Z" },
    { id := "3", userId := "mock-user", title := "Bali Retreat",
      description := some "Relaxing getaway in tropical paradise",
      destination := "Bali, Indonesia", startDate := "2024-08-05", endDate := "2024-08-12",
      createdAt := "2024-02-01T09:15:00Z", updatedAt := some "2024-02-01T09:15:00Z" } ]

/-- The static seed list `mockTripEntries`. -/
def mockTripEntries : List TripEntry :=
  [ { id := "1", tripId := "1", userId := "mock-user", title := "Arrival at Narita Airport",
      description := some "Flight arrival and transfer to hotel",
      location := some "Narita International Airport",
      address := some "1-1 Furugome, Narita, Chiba 282-0004, Japan",
      date := "2024-03-15", startTime := some "14:30", endTime := some "16:00",
      category := "transport", createdAt := "2024-01-15T10:00:00Z",
      updatedAt := some "2024-01-15T10:00:00Z" },
    { id := "2", tripId := "1", userId := "mock-user", title := "Visit Senso-ji Temple",
      description := some "Explore Tokyo\x27s oldest temple in Asakusa",
      location := some "Senso-ji Temple",
      address := some "2-3-1 Asakusa, Taito City, Tokyo 111-0032, Japan",
      date := "2024-03-16", startTime := some "10:00", endTime := some "12:00",
      category := "sightseeing", createdAt := "2024-01-15T10:05:00Z",
      updatedAt := some "2024-01-15T10:05:00Z" },
    { id := "3", tripId := "1", userId := "mock-user", title := "Sushi Dinner at Tsukiji",
      description := some "Fresh sushi at the famous fish market",
      location := some "Tsukiji Outer Market",
      address := some "4 Chome Tsukiji, Chuo City, Tokyo 104-0045, Japan",
      date := "2024-03-16", startTime := some "18:00", endTime := some "20:00",
      category := "dining", createdAt := "2024-01-15T10:10:00Z",
      updatedAt := some "2024-01-15T10:10:00Z" } ]

/-- The static seed list `mockPackingItems`. -/
def mockPackingItems : List PackingItem :=
  [ { id := "1", tripId := "1", userId := "mock-user", itemName := "Passport",
      category := some "documents", isPacked := true,
      notes := some "Check expiration date", createdAt := "2024-01-15T10:00:00Z" },
    { id := "2", tripId := "1", userId := "mock-user", itemName := "Camera",
      category := some "electronics", isPacked := false,
      notes := some "Don\x27t forget extra batteries", createdAt := "2024-01-15T10:05:00Z" },
    { id := "3", tripId := "1", userId := "mock-user", itemName := "Comfortable Walking Shoes",
      category := some "clothing", isPacked := false,
      notes := none, createdAt := "2024-01-15T10:10:00Z" } ]

/-- Result of `DatabaseService.checkDatabaseAvailability`: the returned boolean,
the new value of the memoized static field `isDatabaseAvailable`, and whether a
probe query (the `try` block issuing `auth.me` + bounded `trips.list`) ran. -/
structure CheckResult where
  avail : Bool
  st : Option Bool
  probed : Bool
deriving DecidableEq

/-- Result of a `DatabaseService` read: the returned list, the new memoized
state, whether the probe ran, and whether a real remote query was attempted. -/
structure FetchResult (α : Type) where
  data : List α
  st : Option Bool
  probed : Bool
  queried : Bool

/-- `DatabaseService.checkDatabaseAvailability`. `st` is the current value of
the static field `isDatabaseAvailable` (`none` = JS `null`); `probeOk` is the
oracle outcome of the probe query (`false` = the `try` block threw). -/
def checkDatabaseAvailability (st : Option Bool) (probeOk : Bool) : CheckResult :=
  match st with
  | some b => ⟨b, some b, false⟩
  | none => ⟨probeOk, some probeOk, true⟩

/-- `DatabaseService.getTrips`. `q` is the oracle outcome of the remote
`blink.db.trips.list` query (`Except.error` = the query threw). On the
fallback path the seed trips are re-tagged with the caller's `userId`. -/
def getTrips (st : Option Bool) (probeOk : Bool) (q : Except Unit (List Trip))
    (userId : String) : FetchResult Trip :=
  let c := checkDatabaseAvailability st probeOk
  if c.avail then
    match q with
    | .ok ts => ⟨ts, c.st, c.probed, true⟩
    | .error _ => ⟨mockTrips.map (fun t => { t with userId := userId }), c.st, c.probed, true⟩
  else
    ⟨mockTrips.map (fun t => { t with userId := userId }), c.st, c.probed, false⟩

/-- `DatabaseService.getTripEntries`. On the fallback path the seed entries are
filtered by `tripId` only and returned unmodified. -/
def getTripEntries (st : Option Bool) (probeOk : Bool)
    (q : Except Unit (List TripEntry)) (tripId : String) (userId : String) :
    FetchResult TripEntry :=
  let c := checkDatabaseAvailability st probeOk
  if c.avail then
    match q with
    | .ok es => ⟨es, c.st, c.probed, true⟩
    | .error _ => ⟨mockTripEntries.filter (fun e => e.tripId = tripId), c.st, c.probed, true⟩
  else
    ⟨mockTripEntries.filter (fun e => e.tripId = tripId), c.st, c.probed, false⟩

/-- `DatabaseService.getPackingItems`. On the fallback path the seed items are
filtered by `tripId` only and returned unmodified. -/
def getPackingItems (st : Option Bool) (probeOk : Bool)
    (q : Except Unit (List PackingItem)) (tripId : String) (userId : String) :
    FetchResult PackingItem :=
  let c := checkDatabaseAvailability st probeOk
  if c.avail then
    match q with
    | .ok ps => ⟨ps, c.st, c.probed, true⟩
    | .error _ => ⟨mockPackingItems.filter (fun p => p.tripId = tripId), c.st, c.probed, true⟩
  else
    ⟨mockPackingItems.filter (fun p => p.tripId = tripId), c.st, c.probed, false⟩

/-- Leap-year test of the proleptic Gregorian calendar. -/
def isLeap (y : Nat) : Bool :=
  (y % 4 == 0 && y % 100 != 0) || y % 400 == 0

/-- Number of days in month `m` of year `y`. -/
def daysInMonth (y m : Nat) : Nat :=
  if m = 2 then (if isLeap y then 29 else 28)
  else if m = 4 ∨ m = 6 ∨ m = 9 ∨ m = 11 then 30
  else 31

/-- Days since the Unix epoch of the civil date `y-m-d` (valid Gregorian
date with `y ≥ 1`), following the standard era/year-of-era computation used
by date libraries. -/
def daysFromCivil (y m d : Nat) : Int :=
  let yy := if m ≤ 2 then y - 1 else y
  let era := yy / 400
  let yoe := yy % 400
  let mp := (m + 9) % 12
  let doy := (153 * mp + 2) / 5 + d - 1
  let doe := yoe * 365 + yoe / 4 - yoe / 100 + doy
  (era * 146097 + doe : Int) - 719468

/-- Split a character list at every `'-'` (the behaviour of
`String.splitOn "-"`, written structurally so it computes by reduction). -/
def splitOnDash : List Char → List (List Char)
  | [] => [[]]
  | c :: rest =>
    match splitOnDash rest with
    | [] => []
    | f :: fs => if c = '-' then [] :: f :: fs else (c :: f) :: fs

/-- `String.toNat?` on a character list: all digits and nonempty. -/
def digitsToNat? (cs : List Char) : Option Nat :=
  if cs ≠ [] ∧ cs.all Char.isDigit then
    some (cs.foldl (fun n c => n * 10 + (c.toNat - 48)) 0)
  else none

/-- JS `new Date(s)` on a `"YYYY-MM-DD"` string: midnight UTC of that civil
date, in milliseconds since the epoch; `none` models an Invalid Date (any
numeric comparison against it is false, as with NaN). -/
def parseDateMs (s : String) : Option Int :=
  match splitOnDash s.toList with
  | [ys, ms, ds] =>
    match digitsToNat? ys, digitsToNat? ms, digitsToNat? ds with
    | some y, some m, some d =>
      if ys.length = 4 ∧ ms.length = 2 ∧ ds.length = 2 ∧ 1 ≤ y ∧
          1 ≤ m ∧ m ≤ 12 ∧ 1 ≤ d ∧ d ≤ daysInMonth y m
      then some (daysFromCivil y m d * 86400000)
      else none
    | _, _, _ => none
  | _ => none

/-- The millisecond timestamp of midnight UTC on a valid `"YYYY-MM-DD"` date. -/
def midnightMs (s : String) : Int :=
  (parseDateMs s).getD 0

/-- `getTripStatus` from the dashboard: compares the current instant
(`new Date()`, here `todayMs`) against the midnight-UTC timestamps obtained
by parsing the start and end date strings. A comparison against an invalid
date is false, so those branches fall through to `"completed"`. -/
def getTripStatus (todayMs : Int) (startDate endDate : String) : String :=
  match parseDateMs startDate, parseDateMs endDate with
  | some s, some e =>
    if todayMs < s then "upcoming"
    else if s ≤ todayMs ∧ todayMs ≤ e then "active"
    else "completed"
  | some s, none =>
    if todayMs < s then "upcoming" else "completed"
  | none, _ => "completed"

/-- One step of the `reduce` in `groupEntriesByDate`: if the entry's date is
already a key, push the entry onto that group; otherwise add a new key at the
end (JS object string keys iterate in insertion order). -/
def insertEntry (groups : List (String × List TripEntry)) (e : TripEntry) :
    List (String × List TripEntry) :=
  if e.date ∈ groups.map Prod.fst then
    groups.map (fun g => if g.1 = e.date then (g.1, g.2 ++ [e]) else g)
  else
    groups ++ [(e.date, [e])]

/-- `groupEntriesByDate` from the trip-details page: a `reduce` over the
entry list building a date-keyed mapping, modelled as an association list in
key-insertion order. -/
def groupEntriesByDate (entries : List TripEntry) : List (String × List TripEntry) :=
  entries.foldl insertEntry []

/-- First-occurrence deduplication of a list of keys; used to state the key
iteration order of `groupEntriesByDate`. -/
def dedupKeepFirst : List String → List String
  | [] => []
  | d :: ds => d :: dedupKeepFirst (ds.filter (fun x => x ≠ d))
termination_by l => l.length
decreasing_by simpa using Nat.lt_succ_of_le (List.length_filter_le _ ds)

/-- The sort key of the timeline comparator
`(a.startTime || '').localeCompare(b.startTime || '')`: a missing start time
is replaced by the empty string. -/
def sortKey (e : TripEntry) : String :=
  e.startTime.getD ""

/-- The within-group sort of the timeline view (also the selected-date sort of
the calendar view): sort by lexicographic comparison of the start-time keys.
`Array.prototype.sort` is required to be stable, as `mergeSort` is. -/
def timelineSort (l : List TripEntry) : List TripEntry :=
  l.mergeSort (fun a b => decide (sortKey a ≤ sortKey b))

/-- Toast variant: the error toast passes `variant: 'destructive'`; the
success toasts omit the field (default variant). -/
inductive ToastVariant
  | default
  | destructive
deriving DecidableEq

/-- A `toast(...)` notification call. -/
structure Toast where
  title : String
  description : String
  variant : ToastVariant
deriving DecidableEq

/-- Observable outcome of a dialog `onSubmit` run: the toast shown, whether
`form.reset()` ran, whether `onOpenChange(false)` closed the dialog, and
whether a remote `create` call was attempted. -/
structure SubmitOutcome where
  toast : Toast
  formReset : Bool
  dialogClosed : Bool
  writeAttempted : Bool
deriving DecidableEq

/-- The raw state of the trip-creation form before validation: the two date
pickers may still be unset (`zod` `required_error`), dates are JS `Date`
values modelled as millisecond timestamps. -/
structure TripRawForm where
  title : String
  description : Option String
  destination : String
  startDate : Option Int
  endDate : Option Int

/-- Validated trip form data (`z.infer<typeof tripSchema>`). -/
structure TripFormData where
  title : String
  description : Option String
  destination : String
  startDate : Int
  endDate : Int

/-- `tripSchema`: title and destination nonempty, both dates present, and the
`refine` check `endDate >= startDate`. -/
def tripSchemaValid (f : TripRawForm) : Bool :=
  match f.startDate, f.endDate with
  | some s, some e =>
    decide (1 ≤ f.title.length) && decide (1 ≤ f.destination.length) && decide (s ≤ e)
  | _, _ => false

/-- Coerce a raw form that passed validation to its validated shape. -/
def toTripData (f : TripRawForm) : TripFormData :=
  ⟨f.title, f.description, f.destination, f.startDate.getD 0, f.endDate.getD 0⟩

/-- `CreateTripDialog.onSubmit` on validated data. `auth` is the oracle
outcome of `blink.auth.me()` (the user id) and `writeOk` whether
`blink.db.trips.create` succeeded. The inner `catch` turns a failed write
into a differently-worded success toast; `form.reset()` and
`onOpenChange(false)` run after the inner `try`/`catch` either way. The
outer `catch` (auth failure) shows a destructive error toast and skips the
reset/close. -/
def onSubmitTrip (data : TripFormData) (auth : Except Unit String) (writeOk : Bool) :
    SubmitOutcome :=
  match auth with
  | .error _ =>
    ⟨⟨"Error", "Failed to create trip. Please try again.", .destructive⟩,
      false, false, false⟩
  | .ok _ =>
    if writeOk then
      ⟨⟨"Trip created successfully!",
        "Your trip to " ++ data.destination ++ " has been created.",
        .default⟩, true, true, true⟩
    else
      ⟨⟨"Trip created!",
        "Your trip to " ++ data.destination ++ " has been created (database not available).",
        .default⟩, true, true, true⟩

/-- `form.handleSubmit(onSubmit)` for the trip dialog: the `zodResolver`
runs first and `onSubmit` is invoked only when validation passes (`none` =
rejected, no handler run, no write attempted). -/
def handleSubmitTrip (f : TripRawForm) (auth : Except Unit String) (writeOk : Bool) :
    Option SubmitOutcome :=
  if tripSchemaValid f then some (onSubmitTrip (toTripData f) auth writeOk) else none

/-- Validated entry form data (`z.infer<typeof entrySchema>`). -/
structure EntryFormData where
  title : String
  description : Option String
  location : Option String
  address : Option String
  date : Int
  startTime : Option String
  endTime : Option String
  category : String

/-- `CreateEntryDialog.onSubmit` on validated data, mirroring
`onSubmitTrip` with the entry dialog's toast texts. -/
def onSubmitEntry (data : EntryFormData) (auth : Except Unit String) (writeOk : Bool) :
    SubmitOutcome :=
  match auth with
  | .error _ =>
    ⟨⟨"Error", "Failed to create entry. Please try again.", .destructive⟩,
      false, false, false⟩
  | .ok _ =>
    if writeOk then
      ⟨⟨"Entry added successfully!",
        data.title ++ " has been added to your itinerary.",
        .default⟩, true, true, true⟩
    else
      ⟨⟨"Entry added!",
        data.title ++ " has been added (database not available).",
        .default⟩, true, true, true⟩

/-- Invariant of the grouping fold: the keys of the accumulator are the
first-occurrence dates of the entries processed so far, and each group is the
in-order filter of the processed entries by its key. -/
def GroupInv (processed : List TripEntry) (acc : List (String × List TripEntry)) : Prop :=
  acc.map Prod.fst = dedupKeepFirst (processed.map (fun e => e.date))
  ∧ ∀ k l, (k, l) ∈ acc → l = processed.filter (fun e => e.date = k)

example : daysFromCivil 1970 1 1 = 0 := by decide
example : daysFromCivil 2024 3 15 = 19797 := by decide
example : parseDateMs "2024-03-15" = some 1710460800000 := by decide
example : parseDateMs "2024-02-31" = none := by decide
example : getTripStatus (midnightMs "2024-03-18") "2024-03-15" "2024-03-22" = "active" := by decide

/-- C1: as stated the claim is false. With the database marked unavailable,
`getTripEntries "1" "alice"` returns the seed entries whose `userId` field is
the seed value `"mock-user"`, not the caller's `"alice"`: the owning user id
is NOT overwritten for entries (nor for packing items); only `getTrips` does
the overwrite. -/
theorem getTripEntries_keeps_seed_userId :
    (getTripEntries (some false) true (Except.ok []) "1" "alice").data.map TripEntry.userId
      = ["mock-user", "mock-user", "mock-user"]
    ∧ ("mock-user" : String) ≠ "alice" := by
  exact ⟨rfl, by decide⟩

/-- C1 (amended): while the database is marked unavailable, `getTrips`
returns the seed trips with `userId` overwritten to the caller's id, whereas
`getTripEntries` and `getPackingItems` return the seed records filtered by
`tripId` only, with their `userId` fields unchanged. -/
theorem fallback_reads_shape (probeOk pe pp : Bool) (q : Except Unit (List Trip))
    (qe : Except Unit (List TripEntry)) (qp : Except Unit (List PackingItem))
    (tripId userId : String) :
    (getTrips (some false) probeOk q userId).data
      = mockTrips.map (fun t => { t with userId := userId })
    ∧ (getTripEntries (some false) pe qe tripId userId).data
      = mockTripEntries.filter (fun e => e.tripId = tripId)
    ∧ (getPackingItems (some false) pp qp tripId userId).data
      = mockPackingItems.filter (fun p => p.tripId = tripId) :=
  ⟨rfl, rfl, rfl⟩

/-- C2: once the memoized availability flag is set to `b`, a later
`checkDatabaseAvailability` returns the cached `b` without probing and leaves
the flag at `some b`; every read operation likewise leaves the flag at
`some b` and issues no probe; when the flag is `false` every read returns the
fallback data; and when the flag is `true` a real query that throws does not
reset the flag — that call alone returns the static data. -/
theorem availability_flag_is_sticky (b probeOk : Bool) (q : Except Unit (List Trip))
    (qe : Except Unit (List TripEntry)) (qp : Except Unit (List PackingItem))
    (tripId userId : String) :
    checkDatabaseAvailability (some b) probeOk = ⟨b, some b, false⟩
    ∧ (getTrips (some b) probeOk q userId).st = some b
    ∧ (getTrips (some b) probeOk q userId).probed = false
    ∧ (getTripEntries (some b) probeOk qe tripId userId).st = some b
    ∧ (getTripEntries (some b) probeOk qe tripId userId).probed = false
    ∧ (getPackingItems (some b) probeOk qp tripId userId).st = some b
    ∧ (getPackingItems (some b) probeOk qp tripId userId).probed = false
    ∧ (getTrips (some false) probeOk q userId).data
        = mockTrips.map (fun t => { t with userId := userId })
    ∧ (getTripEntries (some false) probeOk qe tripId userId).data
        = mockTripEntries.filter (fun e => e.tripId = tripId)
    ∧ (getPackingItems (some false) probeOk qp tripId userId).data
        = mockPackingItems.filter (fun p => p.tripId = tripId)
    ∧ getTrips (some true) probeOk (Except.error ()) userId
        = ⟨mockTrips.map (fun t => { t with userId := userId }), some true, false, true⟩
    ∧ getTripEntries (some true) probeOk (Except.error ()) tripId userId
        = ⟨mockTripEntries.filter (fun e => e.tripId = tripId), some true, false, true⟩
    ∧ getPackingItems (some true) probeOk (Except.error ()) tripId userId
        = ⟨mockPackingItems.filter (fun p => p.tripId = tripId), some true, false, true⟩ := by
  cases b <;> cases q <;> cases qe <;> cases qp <;>
    exact ⟨rfl, rfl, rfl, rfl, rfl, rfl, rfl, rfl, rfl, rfl, rfl, rfl, rfl⟩

/-- C3: `getTrips` always resolves (it is a total function in this model) and
its result is either exactly the live query's list or exactly the fallback
set re-tagged with the caller's id — never a mix. -/
theorem getTrips_no_mix (st : Option Bool) (probeOk : Bool)
    (q : Except Unit (List Trip)) (userId : String) :
    (getTrips st probeOk q userId).data
        = mockTrips.map (fun t => { t with userId := userId })
    ∨ ∃ l, q = Except.ok l ∧ (getTrips st probeOk q userId).data = l := by
  rcases st with _ | b
  · cases probeOk
    · exact Or.inl rfl
    · cases q with
      | ok l => exact Or.inr ⟨l, rfl, rfl⟩
      | error e => exact Or.inl rfl
  · cases b
    · exact Or.inl rfl
    · cases q with
      | ok l => exact Or.inr ⟨l, rfl, rfl⟩
      | error e => exact Or.inl rfl

/-- C10: while the database is marked unavailable, the results of
`getTripEntries` and `getPackingItems` do not depend on the `userId`
argument: any two callers receive identical lists for the same `tripId`. -/
theorem fallback_reads_userId_independent (probeOk : Bool)
    (qe : Except Unit (List TripEntry)) (qp : Except Unit (List PackingItem))
    (tripId u1 u2 : String) :
    (getTripEntries (some false) probeOk qe tripId u1).data
      = (getTripEntries (some false) probeOk qe tripId u2).data
    ∧ (getPackingItems (some false) probeOk qp tripId u1).data
      = (getPackingItems (some false) probeOk qp tripId u2).data :=
  ⟨rfl, rfl⟩

/-- C4: as stated the claim is false. `getTripStatus` compares the current
instant with the midnight-UTC timestamps of the date strings, so at noon of
the end date itself (an instant lying strictly inside the civil day
2024-03-22, the end date) the status is `"completed"`, not `"active"`. -/
theorem getTripStatus_completed_on_end_date :
    midnightMs "2024-03-22" ≤ midnightMs "2024-03-22" + 43200000
    ∧ midnightMs "2024-03-22" + 43200000 < midnightMs "2024-03-23"
    ∧ getTripStatus (midnightMs "2024-03-22" + 43200000) "2024-03-15" "2024-03-22"
        = "completed" := by
  refine ⟨by decide, by decide, by decide⟩

/-- C4 (amended): `getTripStatus` is a pure function of the current instant
and the two date strings: `"upcoming"` when the instant precedes midnight of
the start date, `"active"` when it lies in the closed interval from midnight
of the start date to midnight of the end date (so on the end date only at
exactly midnight), else `"completed"`. The spec's three examples hold with
today taken at midnight of the stated date. -/
theorem getTripStatus_characterization (todayMs sMs eMs : Int) (sd ed : String)
    (hs : parseDateMs sd = some sMs) (he : parseDateMs ed = some eMs) :
    getTripStatus todayMs sd ed
      = (if todayMs < sMs then "upcoming"
         else if sMs ≤ todayMs ∧ todayMs ≤ eMs then "active" else "completed")
    ∧ getTripStatus (midnightMs "2024-03-10") "2024-03-15" "2024-03-22" = "upcoming"
    ∧ getTripStatus (midnightMs "2024-03-18") "2024-03-15" "2024-03-22" = "active"
    ∧ getTripStatus (midnightMs "2024-04-01") "2024-03-15" "2024-03-22" = "completed"
    ∧ getTripStatus (midnightMs "2024-03-22") "2024-03-15" "2024-03-22" = "active"
    ∧ getTripStatus (midnightMs "2024-03-22" + 1) "2024-03-15" "2024-03-22" = "completed" := by
  refine ⟨?_, by decide, by decide, by decide, by decide, by decide⟩
  unfold getTripStatus
  rw [hs, he]

/-- Witness for `getTripStatus_characterization` at concrete parsed dates. -/
theorem getTripStatus_characterization_witness :
    getTripStatus 1710460800000 "2024-03-15" "2024-03-22"
      = (if (1710460800000 : Int) < 1710460800000 then "upcoming"
         else if (1710460800000 : Int) ≤ 1710460800000 ∧ (1710460800000 : Int) ≤ 1711065600000
         then "active" else "completed")
    ∧ getTripStatus (midnightMs "2024-03-10") "2024-03-15" "2024-03-22" = "upcoming"
    ∧ getTripStatus (midnightMs "2024-03-18") "2024-03-15" "2024-03-22" = "active"
    ∧ getTripStatus (midnightMs "2024-04-01") "2024-03-15" "2024-03-22" = "completed"
    ∧ getTripStatus (midnightMs "2024-03-22") "2024-03-15" "2024-03-22" = "active"
    ∧ getTripStatus (midnightMs "2024-03-22" + 1) "2024-03-15" "2024-03-22" = "completed" :=
  getTripStatus_characterization 1710460800000 1710460800000 1711065600000
    "2024-03-15" "2024-03-22" (by decide) (by decide)

/-- C8: a trip-creation submission whose end date strictly precedes its start
date fails `tripSchema` validation, and the submit pipeline never runs the
write handler (`handleSubmitTrip` yields `none`, so no `db.trips.create` is
attempted). -/
theorem tripSchema_rejects_end_before_start (f : TripRawForm) (s e : Int)
    (auth : Except Unit String) (writeOk : Bool)
    (hs : f.startDate = some s) (he : f.endDate = some e) (hlt : e < s) :
    tripSchemaValid f = false ∧ handleSubmitTrip f auth writeOk = none := by
  have hv : tripSchemaValid f = false := by
    unfold tripSchemaValid
    rw [hs, he]
    have hd : decide (s ≤ e) = false := decide_eq_false (not_le.mpr hlt)
    simp [hd]
  refine ⟨hv, ?_⟩
  unfold handleSubmitTrip
  rw [hv]
  rfl

/-- Witness for `tripSchema_rejects_end_before_start` with
start=2024-06-10 and end=2024-06-05. -/
theorem tripSchema_rejects_end_before_start_witness :
    tripSchemaValid
        ⟨"Summer", none, "Lisbon",
          some (midnightMs "2024-06-10"), some (midnightMs "2024-06-05")⟩ = false
    ∧ handleSubmitTrip
        ⟨"Summer", none, "Lisbon",
          some (midnightMs "2024-06-10"), some (midnightMs "2024-06-05")⟩
        (Except.ok "user-1") true = none :=
  tripSchema_rejects_end_before_start
    ⟨"Summer", none, "Lisbon", some (midnightMs "2024-06-10"), some (midnightMs "2024-06-05")⟩
    (midnightMs "2024-06-10") (midnightMs "2024-06-05")
    (Except.ok "user-1") true rfl rfl (by decide)

/-- C9: for a validated submission with authentication succeeding, both the
trip and the entry dialog show a default-variant (success) toast whether or
not the remote write throws, the form is reset and the dialog closed in both
outcomes, and the two outcomes differ only in the toast text. -/
theorem failed_write_still_reports_success (data : TripFormData) (ed : EntryFormData)
    (uid : String) (w : Bool) :
    ((onSubmitTrip data (Except.ok uid) w).toast.variant = ToastVariant.default
     ∧ (onSubmitTrip data (Except.ok uid) w).formReset = true
     ∧ (onSubmitTrip data (Except.ok uid) w).dialogClosed = true
     ∧ (onSubmitTrip data (Except.ok uid) w).writeAttempted = true)
    ∧ (onSubmitTrip data (Except.ok uid) true).toast.title
        ≠ (onSubmitTrip data (Except.ok uid) false).toast.title
    ∧ (onSubmitTrip data (Except.ok uid) true).toast.variant
        = (onSubmitTrip data (Except.ok uid) false).toast.variant
    ∧ (onSubmitTrip data (Except.ok uid) true).formReset
        = (onSubmitTrip data (Except.ok uid) false).formReset
    ∧ (onSubmitTrip data (Except.ok uid) true).dialogClosed
        = (onSubmitTrip data (Except.ok uid) false).dialogClosed
    ∧ ((onSubmitEntry ed (Except.ok uid) w).toast.variant = ToastVariant.default
     ∧ (onSubmitEntry ed (Except.ok uid) w).formReset = true
     ∧ (onSubmitEntry ed (Except.ok uid) w).dialogClosed = true
     ∧ (onSubmitEntry ed (Except.ok uid) w).writeAttempted = true)
    ∧ (onSubmitEntry ed (Except.ok uid) true).toast.title
        ≠ (onSubmitEntry ed (Except.ok uid) false).toast.title
    ∧ (onSubmitEntry ed (Except.ok uid) true).toast.variant
        = (onSubmitEntry ed (Except.ok uid) false).toast.variant
    ∧ (onSubmitEntry ed (Except.ok uid) true).formReset
        = (onSubmitEntry ed (Except.ok uid) false).formReset
    ∧ (onSubmitEntry ed (Except.ok uid) true).dialogClosed
        = (onSubmitEntry ed (Except.ok uid) false).dialogClosed := by
  cases w <;>
    refine ⟨⟨rfl, rfl, rfl, rfl⟩, ?_, rfl, rfl, rfl,
      ⟨rfl, rfl, rfl, rfl⟩, ?_, rfl, rfl, rfl⟩ <;>
    first
      | exact (by decide : ("Trip created successfully!" : String) ≠ "Trip created!")
      | exact (by decide : ("Entry added successfully!" : String) ≠ "Entry added!")

theorem dedupKeepFirst_nil : dedupKeepFirst [] = [] := by
  rw [dedupKeepFirst]

theorem dedupKeepFirst_cons (d : String) (ds : List String) :
    dedupKeepFirst (d :: ds) = d :: dedupKeepFirst (ds.filter (fun x => x ≠ d)) := by
  rw [dedupKeepFirst]

theorem mem_dedupKeepFirst (a : String) (l : List String) :
    a ∈ dedupKeepFirst l ↔ a ∈ l := by
  have key : ∀ (n : Nat) (l : List String), l.length ≤ n →
      (a ∈ dedupKeepFirst l ↔ a ∈ l) := by
    intro n
    induction n with
    | zero =>
      intro l hl
      have hnil : l = [] := List.eq_nil_of_length_eq_zero (Nat.le_zero.mp hl)
      subst hnil
      simp [dedupKeepFirst_nil]
    | succ n ih =>
      intro l hl
      cases l with
      | nil => simp [dedupKeepFirst_nil]
      | cons d ds =>
        have hlen : (ds.filter (fun x => x ≠ d)).length ≤ n :=
          le_trans (List.length_filter_le _ _) (Nat.succ_le_succ_iff.mp hl)
        rw [dedupKeepFirst_cons, List.mem_cons, List.mem_cons, ih _ hlen,
          List.mem_filter]
        by_cases had : a = d
        · simp [had]
        · simp [had]
  exact key l.length l le_rfl

theorem nodup_dedupKeepFirst (l : List String) : (dedupKeepFirst l).Nodup := by
  have key : ∀ (n : Nat) (l : List String), l.length ≤ n → (dedupKeepFirst l).Nodup := by
    intro n
    induction n with
    | zero =>
      intro l hl
      have hnil : l = [] := List.eq_nil_of_length_eq_zero (Nat.le_zero.mp hl)
      subst hnil
      simp [dedupKeepFirst_nil]
    | succ n ih =>
      intro l hl
      cases l with
      | nil => simp [dedupKeepFirst_nil]
      | cons d ds =>
        have hlen : (ds.filter (fun x => x ≠ d)).length ≤ n :=
          le_trans (List.length_filter_le _ _) (Nat.succ_le_succ_iff.mp hl)
        rw [dedupKeepFirst_cons, List.nodup_cons]
        refine ⟨?_, ih _ hlen⟩
        intro hmem
        rw [mem_dedupKeepFirst, List.mem_filter] at hmem
        have hdd : d ≠ d := by simpa using hmem.2
        exact hdd rfl
  exact key l.length l le_rfl

theorem dedupKeepFirst_append_singleton (l : List String) (d : String) :
    dedupKeepFirst (l ++ [d])
      = if d ∈ l then dedupKeepFirst l else dedupKeepFirst l ++ [d] := by
  have key : ∀ (n : Nat) (l : List String), l.length ≤ n →
      dedupKeepFirst (l ++ [d])
        = if d ∈ l then dedupKeepFirst l else dedupKeepFirst l ++ [d] := by
    intro n
    induction n with
    | zero =>
      intro l hl
      have hnil : l = [] := List.eq_nil_of_length_eq_zero (Nat.le_zero.mp hl)
      subst hnil
      simp [dedupKeepFirst_nil, dedupKeepFirst_cons]
    | succ n ih =>
      intro l hl
      cases l with
      | nil => simp [dedupKeepFirst_nil, dedupKeepFirst_cons]
      | cons x xs =>
        have hlen : (xs.filter (fun a => a ≠ x)).length ≤ n :=
          le_trans (List.length_filter_le _ _) (Nat.succ_le_succ_iff.mp hl)
        rw [List.cons_append, dedupKeepFirst_cons, List.filter_append]
        by_cases hdx : d = x
        · subst hdx
          have hfd : ([d].filter (fun a => a ≠ d)) = [] := by simp
          rw [hfd, List.append_nil, ← dedupKeepFirst_cons,
            if_pos (List.mem_cons_self d xs)]
        · have hfd : ([d].filter (fun a => a ≠ x)) = [d] := by simp [hdx]
          rw [hfd, ih _ hlen]
          by_cases hdxs : d ∈ xs
          · have h1 : d ∈ xs.filter (fun a => a ≠ x) :=
              List.mem_filter.mpr ⟨hdxs, by simp [hdx]⟩
            rw [if_pos h1, ← dedupKeepFirst_cons,
              if_pos (List.mem_cons.mpr (Or.inr hdxs))]
          · have h1 : d ∉ xs.filter (fun a => a ≠ x) :=
              fun hmem => hdxs (List.mem_filter.mp hmem).1
            have h2 : d ∉ x :: xs := by simp [hdx, hdxs]
            rw [if_neg h1, if_neg h2, dedupKeepFirst_cons, List.cons_append]
  exact key l.length l le_rfl

theorem insertEntry_inv (p : List TripEntry) (acc : List (String × List TripEntry))
    (e : TripEntry) (h : GroupInv p acc) : GroupInv (p ++ [e]) (insertEntry acc e) := by
  obtain ⟨hkeys, hchar⟩ := h
  have hmapdate : (p ++ [e]).map (fun x => x.date) = p.map (fun x => x.date) ++ [e.date] := by
    simp
  unfold insertEntry
  by_cases hmem : e.date ∈ acc.map Prod.fst
  · rw [if_pos hmem]
    have hkeys2 : (acc.map (fun g => if g.1 = e.date then (g.1, g.2 ++ [e]) else g)).map Prod.fst
        = acc.map Prod.fst := by
      rw [List.map_map]
      apply List.map_congr_left
      intro g _
      by_cases hg : g.1 = e.date
      · simp [hg]
      · simp [hg]
    have hedate : e.date ∈ p.map (fun x => x.date) := by
      rw [hkeys] at hmem
      exact (mem_dedupKeepFirst _ _).mp hmem
    constructor
    · rw [hkeys2, hmapdate, dedupKeepFirst_append_singleton, if_pos hedate, hkeys]
    · intro k l hkl
      rw [List.mem_map] at hkl
      obtain ⟨⟨k0, l0⟩, hg0, heq⟩ := hkl
      have hl0 := hchar k0 l0 hg0
      by_cases hk0 : k0 = e.date
      · subst hk0
        rw [if_pos rfl] at heq
        rw [Prod.mk.injEq] at heq
        obtain ⟨rfl, rfl⟩ := heq
        rw [List.filter_append, ← hl0]
        simp
      · rw [if_neg hk0] at heq
        rw [Prod.mk.injEq] at heq
        obtain ⟨rfl, rfl⟩ := heq
        have hne : e.date ≠ k0 := fun hh => hk0 hh.symm
        rw [List.filter_append, ← hl0]
        simp [hne]
  · rw [if_neg hmem]
    have hedate : e.date ∉ p.map (fun x => x.date) := by
      rw [hkeys] at hmem
      exact fun hc => hmem ((mem_dedupKeepFirst _ _).mpr hc)
    constructor
    · rw [List.map_append, hmapdate, dedupKeepFirst_append_singleton, if_neg hedate, ← hkeys]
      simp
    · intro k l hkl
      rcases List.mem_append.mp hkl with hin | hnew
      · have hl := hchar k l hin
        have hkne : e.date ≠ k := by
          intro hh
          exact hmem (hh ▸ List.mem_map_of_mem Prod.fst hin)
        rw [List.filter_append, ← hl]
        simp [hkne]
      · rw [List.mem_singleton, Prod.mk.injEq] at hnew
        obtain ⟨rfl, rfl⟩ := hnew
        have hp0 : p.filter (fun x => x.date = e.date) = [] := by
          rw [List.filter_eq_nil_iff]
          intro a ha
          simp only [decide_eq_true_eq]
          intro hda
          exact hedate (hda ▸ List.mem_map_of_mem (fun x => x.date) ha)
        rw [List.filter_append, hp0]
        simp

theorem foldl_insertEntry_inv (es : List TripEntry) :
    ∀ (p : List TripEntry) (acc : List (String × List TripEntry)),
      GroupInv p acc → GroupInv (p ++ es) (es.foldl insertEntry acc) := by
  induction es with
  | nil =>
    intro p acc h
    simpa using h
  | cons e es ih =>
    intro p acc h
    rw [List.foldl_cons]
    have h3 := ih (p ++ [e]) (insertEntry acc e) (insertEntry_inv p acc e h)
    rw [List.append_assoc] at h3
    simpa using h3

theorem groups_eq_map_of_char (F : String → List TripEntry) :
    ∀ gs : List (String × List TripEntry),
      (∀ k l, (k, l) ∈ gs → l = F k) →
      gs = (gs.map Prod.fst).map (fun k => (k, F k)) := by
  intro gs
  induction gs with
  | nil => intro _; rfl
  | cons g gs ih =>
    intro h
    obtain ⟨k, l⟩ := g
    have h1 : l = F k := h k l (List.mem_cons_self _ _)
    have h2 := ih (fun a b hab => h a b (List.mem_cons_of_mem _ hab))
    simp only [List.map_cons]
    rw [← h1, ← h2]

theorem count_flatMap_groups (entries : List TripEntry) :
    ∀ ks : List String, ks.Nodup → ∀ x : TripEntry,
      (((ks.map (fun k => (k, entries.filter (fun e => e.date = k)))).flatMap Prod.snd).count x)
        = if x.date ∈ ks then entries.count x else 0 := by
  intro ks
  induction ks with
  | nil =>
    intro _ x
    simp
  | cons k ks ih =>
    intro hnodup x
    rw [List.map_cons, List.flatMap_cons, List.count_append,
      ih (List.Nodup.of_cons hnodup) x]
    by_cases hxk : x.date = k
    · have hnk : x.date ∉ ks := by
        rw [hxk]
        exact (List.nodup_cons.mp hnodup).1
      rw [if_neg hnk, if_pos (List.mem_cons.mpr (Or.inl hxk))]
      rw [List.count_filter (by simpa using hxk), Nat.add_zero]
    · have h0 : (entries.filter (fun e => e.date = k)).count x = 0 := by
        rw [List.count_eq_zero]
        intro hmemf
        exact hxk (by simpa using (List.mem_filter.mp hmemf).2)
      rw [h0, Nat.zero_add]
      simp [List.mem_cons, hxk]

/-- C6: `groupEntriesByDate` equals the mapping that takes the
first-occurrence-ordered list of distinct dates and pairs each date with the
in-order filter of the input by that date; consequently every input entry
lands in exactly the group keyed by its literal date string, groups preserve
relative input order, keys iterate in first-occurrence order, and the
multiset of all grouped entries equals the input (counted with
multiplicity). -/
theorem groupEntriesByDate_spec (entries : List TripEntry) :
    groupEntriesByDate entries
      = (dedupKeepFirst (entries.map (fun e => e.date))).map
          (fun k => (k, entries.filter (fun e => e.date = k)))
    ∧ ∀ x : TripEntry,
        ((groupEntriesByDate entries).flatMap Prod.snd).count x = entries.count x := by
  have h0 : GroupInv [] ([] : List (String × List TripEntry)) := by
    constructor
    · simp [dedupKeepFirst_nil]
    · intro k l hkl
      cases hkl
  have hinv : GroupInv entries (groupEntriesByDate entries) := by
    have h1 := foldl_insertEntry_inv entries [] [] h0
    simpa [groupEntriesByDate] using h1
  obtain ⟨hkeys, hchar⟩ := hinv
  have heq : groupEntriesByDate entries
      = (dedupKeepFirst (entries.map (fun e => e.date))).map
          (fun k => (k, entries.filter (fun e => e.date = k))) := by
    conv_lhs => rw [groups_eq_map_of_char _ _ hchar]
    rw [hkeys]
  refine ⟨heq, ?_⟩
  intro x
  rw [heq, count_flatMap_groups entries _ (nodup_dedupKeepFirst _) x]
  by_cases hx : x.date ∈ dedupKeepFirst (entries.map (fun e => e.date))
  · rw [if_pos hx]
  · rw [if_neg hx]
    symm
    rw [List.count_eq_zero]
    intro hmem
    exact hx ((mem_dedupKeepFirst _ _).mpr (List.mem_map_of_mem _ hmem))

/-- C7: the timeline within-group sort (and the calendar selected-date sort)
returns a permutation of its input that is sorted by lexicographic comparison
of the start-time keys, where a missing start time is keyed as the empty
string and an empty-string key compares no greater than any other key. -/
theorem timelineSort_spec (l : List TripEntry) :
    List.Perm (timelineSort l) l
    ∧ (timelineSort l).Pairwise (fun a b => sortKey a ≤ sortKey b)
    ∧ ∀ a b : TripEntry, a.startTime = none → sortKey a ≤ sortKey b := by
  unfold timelineSort
  refine ⟨List.mergeSort_perm l _, ?_, ?_⟩
  · have h := @List.sorted_mergeSort TripEntry
      (fun a b => decide (sortKey a ≤ sortKey b))
      (fun a b c hab hbc => decide_eq_true
        (le_trans (of_decide_eq_true hab) (of_decide_eq_true hbc)))
      (fun a b => by
        rcases le_total (sortKey a) (sortKey b) with hh | hh <;> simp [hh]) l
    exact h.imp (fun hab => of_decide_eq_true hab)
  · intro a b ha
    have hk : sortKey a = "" := by simp [sortKey, ha]
    rw [hk]
    exact String.le_iff_toList_le.mpr List.nil_le

end TravelPlan
